import Mathlib

/-!
Verification of the quantum-task pipeline (HTTP submission front end, durable
task store, message broker, worker) against its natural-language specification.

The Python sources are shallowly embedded:
  * `src/api/src/db/models.py` → `TaskStatus`, `TaskRec`, `HistEntry`
  * `src/api/execution/result_formatter.py` → `format_counts`, `format_error`
  * `src/api/worker.py` (`process_task`) → `process_task`
  * `src/api/src/queue/consumer.py` → `consume_one`
  * `src/api/src/queue/publisher.py` → `publish_task_message`
  * `src/src/core/services/task_service.py` + `POST /tasks` → `submit_task`
  * `src/api/utils.py` (`validate_uuid`) and CPython `uuid.UUID` → `pythonUUIDParse`,
    `forceVersion4`, `uuidToString`, `validate_uuid`
  * `src/api/routes.py` → `get_task_status`, `health_check`
  * the repository layer (`TaskRepository.create_task` /
    `TaskRepository.update_task_status`), whose source file is not part of the
    sources at hand, is modelled from the spec (§4.1 Store): `create_task`,
    `update_task_status`.

Machine wall-clock time is modelled by a natural-number counter stored in the
store state which advances on every store operation; Python dictionaries of
measurement counts are modelled as association lists `List (String × Int)`.
-/

namespace QuantumTasks

/-- Task lifecycle status (src/api/src/db/models.py, `class TaskStatus`):
four wire values, lowercase. -/
inductive TaskStatus where
  | pending
  | processing
  | completed
  | failed
deriving DecidableEq, Repr

/-- The lowercase wire value of a status (`TaskStatus.value` in Python,
since the enum members are defined with lowercase string values). -/
def TaskStatus.value : TaskStatus → String
  | .pending => "pending"
  | .processing => "processing"
  | .completed => "completed"
  | .failed => "failed"

/-- Terminal states per the lifecycle state machine (spec §4.3). -/
def TaskStatus.isTerminal : TaskStatus → Bool
  | .completed => true
  | .failed => true
  | _ => false

/-- Measurement counts: Python `dict[str, int]` modelled as an association
list from bitstring keys to integer counts. -/
abbrev Counts := List (String × Int)

/-- Character test used by `format_counts`: `c in "01"`. -/
def isBitChar (c : Char) : Bool := c == '0' || c == '1'

/-- `ResultFormatter.format_counts` (src/api/execution/result_formatter.py,
lines 23-67). Validates that every key is a string over `\x7b'0','1'\x7d` (Python:
`all(c in "01" for c in key)`) and every value a nonnegative integer, raising
`ValueError` otherwise (modelled as `Except.error` carrying the message), and
returns the input unchanged when validation passes. Note the key check is a
universally quantified character test, so the empty-string key passes it. -/
def format_counts (counts : Counts) : Except String Counts :=
  match counts.find? (fun kv => !(kv.1.data.all isBitChar)) with
  | some kv => .error ("Count key must be bitstring, got \x27" ++ kv.1 ++ "\x27")
  | none =>
    match counts.find? (fun kv => decide (kv.2 < 0)) with
    | some kv => .error ("Count value must be non-negative, got " ++ toString kv.2)
    | none => .ok counts

/-- `ResultFormatter.format_error` (src/api/execution/result_formatter.py,
lines 69-95): `f"\x7berror_category\x7d: \x7berror_type\x7d: \x7berror_message\x7d"`.
The Python `type(error).__name__` is passed explicitly as `errorType` since
exceptions are modelled as data. -/
def format_error (errorType : String) (errorMessage : String)
    (errorCategory : String) : String :=
  errorCategory ++ ": " ++ errorType ++ ": " ++ errorMessage

/-- The validation predicate actually enforced by `format_counts`: every key
is a (possibly empty) string over `\x7b'0','1'\x7d` and every value is nonnegative. -/
def validCountsB (counts : Counts) : Bool :=
  counts.all (fun kv => kv.1.data.all isBitChar && decide (0 ≤ kv.2))

/-- The validation predicate in the words of the specification: every key a
NONEMPTY bitstring over `\x7b'0','1'\x7d`, every value nonnegative (spec §3 `result`
field and §4.5 counts validation). Used to compare the claims against
`format_counts`. -/
def specValidCounts (counts : Counts) : Bool :=
  counts.all (fun kv => (!kv.1.isEmpty) && kv.1.data.all isBitChar && decide (0 ≤ kv.2))

theorem format_counts_eq_ok_iff (c : Counts) :
    (format_counts c = Except.ok c) ↔ validCountsB c = true := by
  unfold format_counts validCountsB
  constructor
  · intro h
    cases hk : c.find? (fun kv => !(kv.1.data.all isBitChar)) with
    | some kv => simp [hk] at h
    | none =>
      cases hv : c.find? (fun kv => decide (kv.2 < 0)) with
      | some kv => simp [hk, hv] at h
      | none =>
        rw [List.find?_eq_none] at hk hv
        rw [List.all_eq_true]
        intro kv hmem
        have h1 := hk kv hmem
        have h2 := hv kv hmem
        simp at h1 h2
        simp [h2]
        exact h1
  · intro h
    rw [List.all_eq_true] at h
    have hk : c.find? (fun kv => !(kv.1.data.all isBitChar)) = none := by
      rw [List.find?_eq_none]
      intro kv hmem
      have := h kv hmem
      simp at this ⊢
      exact this.1
    have hv : c.find? (fun kv => decide (kv.2 < 0)) = none := by
      rw [List.find?_eq_none]
      intro kv hmem
      have := h kv hmem
      simp at this ⊢
      omega
    simp [hk, hv]

theorem format_counts_ok_eq (c d : Counts) (h : format_counts c = Except.ok d) :
    d = c := by
  unfold format_counts at h
  cases hk : c.find? (fun kv => !(kv.1.data.all isBitChar)) with
  | some kv => simp [hk] at h
  | none =>
    cases hv : c.find? (fun kv => decide (kv.2 < 0)) with
    | some kv => simp [hk, hv] at h
    | none => simp [hk, hv] at h; exact h.symm

/-- Task row (src/api/src/db/models.py, `class Task`, plus the `shots` column
added by migration 002). `task_id` is the 128-bit UUID value modelled as a
natural number; timestamps are modelled by the store clock. -/
structure TaskRec where
  task_id : Nat
  circuit : String
  shots : Nat
  submitted_at : Nat
  current_status : TaskStatus
  completed_at : Option Nat
  result : Option Counts
  error_message : Option String
deriving DecidableEq, Repr

/-- Status-history row (src/api/src/db/models.py, `class StatusHistory`). -/
structure HistEntry where
  task_id : Nat
  status : TaskStatus
  transitioned_at : Nat
  notes : String
deriving DecidableEq, Repr

/-- The persistent store: the `tasks` table, the append-only `status_history`
table, a fresh-id source standing in for server-side `uuid4()` generation,
and a monotone wall clock standing in for `now()`. -/
structure Store where
  tasks : List TaskRec
  history : List HistEntry
  nextId : Nat
  clock : Nat
deriving DecidableEq, Repr

def emptyStore : Store := ⟨[], [], 0, 0⟩

/-- Point read by primary key (`TaskRepository.get_task`). -/
def findTask (s : Store) (id : Nat) : Option TaskRec :=
  s.tasks.find? (fun t => t.task_id == id)

def notesCreated : String := "Task created"

/-- Modelled from the spec: `TaskRepository.create_task` (spec §4.1; the
repository source file is not among the sources at hand, only its callers).
In a single transaction, insert the task row with `current_status = PENDING`
and one history entry `(PENDING, now, "Task created")` whose
`transitioned_at` equals `submitted_at`. The generated `task_id` is modelled
as a fresh value from the store's id source. -/
def create_task (s : Store) (circuit : String) (shots : Nat) : Store × TaskRec :=
  let t : TaskRec :=
    ⟨s.nextId, circuit, shots, s.clock, TaskStatus.pending, none, none, none⟩
  let h : HistEntry := ⟨s.nextId, TaskStatus.pending, s.clock, notesCreated⟩
  (⟨s.tasks ++ [t], s.history ++ [h], s.nextId + 1, s.clock + 1⟩, t)

/-- Modelled from the spec: the guarded transition
`TaskRepository.update_task_status(task_id, from_status, to_status,
result?, error_message?, notes)` (spec §4.1; the repository source file is
not among the sources at hand, only its callers in worker.py and routes.py).
Updates the task row only when its `current_status` still equals
`from_status`, simultaneously appends a history entry stamped `now`, sets
`completed_at = now()` when the target status is terminal, and stores the
optional `result` / `error_message` payloads when provided. Returns `true`
iff the update affected the row; the whole operation is one transaction.
The clock advances on every call. -/
def update_task_status (s : Store) (id : Nat) (fromSt toSt : TaskStatus)
    (result : Option Counts) (error_message : Option String) (notes : String) :
    Store × Bool :=
  match s.tasks.find? (fun t => t.task_id == id) with
  | some t =>
    if t.current_status = fromSt then
      let t' : TaskRec :=
        { t with
          current_status := toSt
          completed_at := if toSt.isTerminal then some s.clock else t.completed_at
          result := if result.isSome then result else t.result
          error_message := if error_message.isSome then error_message else t.error_message }
      let h : HistEntry := ⟨id, toSt, s.clock, notes⟩
      (⟨s.tasks.map (fun u => if u.task_id == id then t' else u),
        s.history ++ [h], s.nextId, s.clock + 1⟩, true)
    else (⟨s.tasks, s.history, s.nextId, s.clock + 1⟩, false)
  | none => (⟨s.tasks, s.history, s.nextId, s.clock + 1⟩, false)

/-- Store states reachable by the system's committed operations: the empty
store, task creation by the submission coordinator, and guarded status
transitions (the worker's claim and commit operations all go through
`update_task_status`). -/
inductive Reachable : Store → Prop where
  | empty : Reachable emptyStore
  | create (s : Store) (circuit : String) (shots : Nat) :
      Reachable s → Reachable (create_task s circuit shots).1
  | step (s : Store) (id : Nat) (fromSt toSt : TaskStatus)
      (result : Option Counts) (error_message : Option String) (notes : String) :
      Reachable s →
      Reachable (update_task_status s id fromSt toSt result error_message notes).1

/-- Fold step choosing the entry with the larger `transitioned_at`. -/
def pickLater (acc : Option HistEntry) (e : HistEntry) : Option HistEntry :=
  match acc with
  | none => some e
  | some a => if a.transitioned_at < e.transitioned_at then some e else some a

/-- The entry that is latest by `transitioned_at` in a list of history rows. -/
def latestByTime (l : List HistEntry) : Option HistEntry :=
  l.foldl pickLater none

/-- The history entry of task `id` that is latest by `transitioned_at`. -/
def latestTaskEntry (s : Store) (id : Nat) : Option HistEntry :=
  latestByTime (s.history.filter (fun e => e.task_id == id))

theorem latestByTime_concat (l : List HistEntry) (x : HistEntry) :
    latestByTime (l ++ [x]) = pickLater (latestByTime l) x := by
  simp [latestByTime, List.foldl_append]

theorem latestByTime_mem_aux (l : List HistEntry) :
    ∀ acc a, l.foldl pickLater acc = some a → acc = some a ∨ a ∈ l := by
  induction l with
  | nil => intro acc a h; exact Or.inl h
  | cons e es ih =>
    intro acc a h
    rcases ih (pickLater acc e) a h with h1 | h1
    · cases acc with
      | none =>
        simp [pickLater] at h1
        exact Or.inr (by simp [h1])
      | some b =>
        simp only [pickLater] at h1
        by_cases hlt : b.transitioned_at < e.transitioned_at
        · simp [hlt] at h1
          exact Or.inr (by simp [h1])
        · simp [hlt] at h1
          exact Or.inl (by simp [h1])
    · exact Or.inr (List.mem_cons_of_mem _ h1)

theorem latestByTime_mem (l : List HistEntry) (a : HistEntry)
    (h : latestByTime l = some a) : a ∈ l := by
  rcases latestByTime_mem_aux l none a h with h1 | h1
  · exact absurd h1 (by simp)
  · exact h1

/-- The invariants maintained by every committed store state: generated ids
bound the ids present in both tables, history timestamps stay below the
clock, task ids are unique, and the latest-by-`transitioned_at` history
entry of every task carries the task's `current_status`. -/
structure StoreInv (s : Store) : Prop where
  task_ids_lt : ∀ t ∈ s.tasks, t.task_id < s.nextId
  hist_ids_lt : ∀ e ∈ s.history, e.task_id < s.nextId
  hist_times_lt : ∀ e ∈ s.history, e.transitioned_at < s.clock
  ids_distinct : s.tasks.Pairwise (fun a b => a.task_id ≠ b.task_id)
  latest_matches : ∀ t ∈ s.tasks,
    (latestTaskEntry s t.task_id).map HistEntry.status = some t.current_status

theorem storeInv_create (s : Store) (circuit : String) (shots : Nat)
    (h : StoreInv s) : StoreInv (create_task s circuit shots).1 := by
  constructor
  · intro u hu
    simp only [create_task, List.mem_append, List.mem_singleton] at hu
    rcases hu with hu | hu
    · exact Nat.lt_succ_of_lt (h.task_ids_lt u hu)
    · simp [create_task, hu]
  · intro e he
    simp only [create_task, List.mem_append, List.mem_singleton] at he
    rcases he with he | he
    · exact Nat.lt_succ_of_lt (h.hist_ids_lt e he)
    · simp [create_task, he]
  · intro e he
    simp only [create_task, List.mem_append, List.mem_singleton] at he
    rcases he with he | he
    · exact Nat.lt_succ_of_lt (h.hist_times_lt e he)
    · simp [create_task, he]
  · simp only [create_task]
    rw [List.pairwise_append]
    refine ⟨h.ids_distinct, List.pairwise_singleton _ _, ?_⟩
    intro a ha b hb
    simp only [List.mem_singleton] at hb
    subst hb
    exact Nat.ne_of_lt (h.task_ids_lt a ha)
  · intro u hu
    simp only [create_task, List.mem_append, List.mem_singleton] at hu
    rcases hu with hu | hu
    · have hne : s.nextId ≠ u.task_id := Nat.ne_of_gt (h.task_ids_lt u hu)
      have : latestTaskEntry (create_task s circuit shots).1 u.task_id =
          latestTaskEntry s u.task_id := by
        simp [latestTaskEntry, create_task, List.filter_append, hne]
      rw [this]
      exact h.latest_matches u hu
    · subst hu
      have hfil : s.history.filter (fun e => e.task_id == s.nextId) = [] := by
        rw [List.filter_eq_nil_iff]
        intro e he
        simp
        exact Nat.ne_of_lt (h.hist_ids_lt e he)
      simp [latestTaskEntry, create_task, List.filter_append, hfil,
        latestByTime, pickLater]

theorem eq_of_mem_of_task_id_eq {l : List TaskRec}
    (hp : l.Pairwise (fun a b => a.task_id ≠ b.task_id))
    {u v : TaskRec} (hu : u ∈ l) (hv : v ∈ l) (h : u.task_id = v.task_id) :
    u = v := by
  by_contra hne
  exact (hp.forall (fun a b hab => Ne.symm hab) hu hv hne) h

theorem find?_map_replace (l : List TaskRec) (id : Nat) (t t' : TaskRec)
    (hfind : l.find? (fun u => u.task_id == id) = some t)
    (hid' : t'.task_id = t.task_id) :
    (l.map (fun u => if u.task_id == id then t' else u)).find?
      (fun u => u.task_id == id) = some t' := by
  induction l with
  | nil => simp at hfind
  | cons v vs ih =>
    by_cases hv : v.task_id = id
    · have ht : v = t := by simpa [List.find?_cons, hv] using hfind
      subst ht
      simp [List.find?_cons, hv, hid']
    · have hb : (v.task_id == id) = false := by simp [hv]
      simp only [List.find?_cons, hb] at hfind
      simp only [List.map_cons, hb, Bool.false_eq_true, if_false, List.find?_cons]
      exact ih hfind

/-- The task row written by a successful guarded transition. -/
def updatedRec (s : Store) (toSt : TaskStatus) (result : Option Counts)
    (error_message : Option String) (t : TaskRec) : TaskRec :=
  { t with
    current_status := toSt
    completed_at := if toSt.isTerminal then some s.clock else t.completed_at
    result := if result.isSome then result else t.result
    error_message := if error_message.isSome then error_message else t.error_message }

theorem update_task_status_success_eq (s : Store) (id : Nat)
    (fromSt toSt : TaskStatus) (result : Option Counts)
    (error_message : Option String) (notes : String) (t : TaskRec)
    (hfind : s.tasks.find? (fun u => u.task_id == id) = some t)
    (hst : t.current_status = fromSt) :
    update_task_status s id fromSt toSt result error_message notes =
      (⟨s.tasks.map (fun u => if u.task_id == id
            then updatedRec s toSt result error_message t else u),
        s.history ++ [⟨id, toSt, s.clock, notes⟩], s.nextId, s.clock + 1⟩, true) := by
  unfold update_task_status
  rw [hfind]
  simp [hst, updatedRec]

theorem update_task_status_fail_eq (s : Store) (id : Nat)
    (fromSt toSt : TaskStatus) (result : Option Counts)
    (error_message : Option String) (notes : String)
    (h : (update_task_status s id fromSt toSt result error_message notes).2 = false) :
    (update_task_status s id fromSt toSt result error_message notes).1 =
      ⟨s.tasks, s.history, s.nextId, s.clock + 1⟩ := by
  unfold update_task_status at h ⊢
  cases hf : s.tasks.find? (fun u => u.task_id == id) with
  | none => simp
  | some t =>
    rw [hf] at h
    by_cases hs : t.current_status = fromSt
    · simp [hs] at h
    · simp [hs]

theorem findTask_update_self (s : Store) (id : Nat) (fromSt toSt : TaskStatus)
    (result : Option Counts) (error_message : Option String) (notes : String)
    (t : TaskRec) (hfind : findTask s id = some t)
    (hst : t.current_status = fromSt) :
    findTask (update_task_status s id fromSt toSt result error_message notes).1 id =
      some (updatedRec s toSt result error_message t) := by
  unfold findTask at hfind
  rw [update_task_status_success_eq s id fromSt toSt result error_message notes t
    hfind hst]
  unfold findTask
  exact find?_map_replace s.tasks id t _ hfind rfl

theorem storeInv_update (s : Store) (id : Nat) (fromSt toSt : TaskStatus)
    (result : Option Counts) (error_message : Option String) (notes : String)
    (h : StoreInv s) :
    StoreInv (update_task_status s id fromSt toSt result error_message notes).1 := by
  cases hsucc : (update_task_status s id fromSt toSt result error_message notes).2 with
  | false =>
    rw [update_task_status_fail_eq s id fromSt toSt result error_message notes hsucc]
    constructor
    · exact h.task_ids_lt
    · exact h.hist_ids_lt
    · intro e he; exact Nat.lt_succ_of_lt (h.hist_times_lt e he)
    · exact h.ids_distinct
    · intro t ht
      have := h.latest_matches t ht
      simpa [latestTaskEntry] using this
  | true =>
    cases hf : s.tasks.find? (fun u => u.task_id == id) with
    | none =>
      exfalso
      unfold update_task_status at hsucc
      rw [hf] at hsucc
      simp at hsucc
    | some t =>
      by_cases hst : t.current_status = fromSt
      · have heq := update_task_status_success_eq s id fromSt toSt result
          error_message notes t hf hst
        rw [heq]
        have htmem : t ∈ s.tasks := List.mem_of_find?_eq_some hf
        have htid : t.task_id = id := by
          have := List.find?_some hf
          simpa using this
        have hidpres : ∀ v : TaskRec,
            ((if v.task_id == id then updatedRec s toSt result error_message t
              else v) : TaskRec).task_id = v.task_id := by
          intro v
          by_cases hv : v.task_id = id
          · simp [hv, updatedRec, htid]
          · simp [hv]
        constructor
        · intro u hu
          rcases List.mem_map.mp hu with ⟨v, hv, rfl⟩
          rw [hidpres v]
          exact h.task_ids_lt v hv
        · intro e he
          rcases List.mem_append.mp he with he | he
          · exact h.hist_ids_lt e he
          · simp only [List.mem_singleton] at he
            subst he
            simpa [← htid] using h.task_ids_lt t htmem
        · intro e he
          rcases List.mem_append.mp he with he | he
          · exact Nat.lt_succ_of_lt (h.hist_times_lt e he)
          · simp only [List.mem_singleton] at he
            subst he
            exact Nat.lt_succ_self _
        · rw [List.pairwise_map]
          refine h.ids_distinct.imp ?_
          intro a b hab
          rw [hidpres a, hidpres b]
          exact hab
        · intro u hu
          rcases List.mem_map.mp hu with ⟨v, hv, rfl⟩
          by_cases hvid : v.task_id = id
          · have hveq : v = t := eq_of_mem_of_task_id_eq h.ids_distinct hv htmem
              (by rw [hvid, htid])
            subst hveq
            simp only [hvid, beq_self_eq_true, if_pos]
            have htid' : (updatedRec s toSt result error_message v).task_id =
                v.task_id := rfl
            rw [htid', hvid]
            have hfil : (s.history ++ [(⟨id, toSt, s.clock, notes⟩ : HistEntry)]).filter
                (fun e => e.task_id == id) =
                s.history.filter (fun e => e.task_id == id) ++
                  [(⟨id, toSt, s.clock, notes⟩ : HistEntry)] := by
              rw [List.filter_append]
              simp
            simp only [latestTaskEntry]
            rw [hfil, latestByTime_concat]
            cases hl : latestByTime (s.history.filter (fun e => e.task_id == id)) with
            | none => simp [pickLater, updatedRec]
            | some a =>
              have hamem : a ∈ s.history := by
                have := latestByTime_mem _ a hl
                exact (List.mem_filter.mp this).1
              have : a.transitioned_at < s.clock := h.hist_times_lt a hamem
              simp [pickLater, this, updatedRec]
          · have hb : (v.task_id == id) = false := by simp [hvid]
            simp only [hb, Bool.false_eq_true, if_false]
            have hfil : (s.history ++ [(⟨id, toSt, s.clock, notes⟩ : HistEntry)]).filter
                (fun e => e.task_id == v.task_id) =
                s.history.filter (fun e => e.task_id == v.task_id) := by
              rw [List.filter_append]
              simp [Ne.symm hvid]
            have := h.latest_matches v hv
            simp only [latestTaskEntry] at this ⊢
            rw [hfil]
            exact this
      · exfalso
        unfold update_task_status at hsucc
        rw [hf] at hsucc
        simp [hst] at hsucc

/-- Every reachable committed store state satisfies the store invariants. -/
theorem storeInv_of_reachable (s : Store) (h : Reachable s) : StoreInv s := by
  induction h with
  | empty =>
    constructor
    · intro t ht; simp [emptyStore] at ht
    · intro e he; simp [emptyStore] at he
    · intro e he; simp [emptyStore] at he
    · simp [emptyStore]
    · intro t ht; simp [emptyStore] at ht
  | create s circuit shots _ ih => exact storeInv_create s circuit shots ih
  | step s id fromSt toSt result error_message notes _ ih =>
    exact storeInv_update s id fromSt toSt result error_message notes ih

def notesClaimed : String := "Worker started processing"
def notesCompleted : String := "Task completed successfully"
def catParse : String := "Circuit parse error"
def catExec : String := "Execution error"
def catUnexpected : String := "Unexpected error"
def tyQASM : String := "QASM3ImporterError"
def tyAer : String := "AerError"
def tyMemory : String := "MemoryError"
def tyValueError : String := "ValueError"

/-! CPython `uuid.UUID(hex)` string parsing, as invoked by
`validate_uuid` (src/api/utils.py) and by the worker
(`uuid.UUID(task_id_str)`, src/api/worker.py line 60): the constructor
removes `urn:` and `uuid:` occurrences, strips surrounding braces, removes
all hyphens, requires exactly 32 hexadecimal digits and reads them as a
128-bit integer. (CPython's `int(hex, 16)` additionally tolerates a sign or
underscores inside a 32-character string; that corner is not modelled and no
claim exercises it.) -/

def hexVal (c : Char) : Option Nat :=
  if 48 ≤ c.toNat ∧ c.toNat ≤ 57 then some (c.toNat - 48)
  else if 97 ≤ c.toNat ∧ c.toNat ≤ 102 then some (c.toNat - 87)
  else if 65 ≤ c.toNat ∧ c.toNat ≤ 70 then some (c.toNat - 55)
  else none

def isBrace (c : Char) : Bool := c == '\x7b' || c == '\x7d'

/-- Left-to-right non-overlapping removal of a pattern (Python
`str.replace(pat, "")`), implemented with an explicit fuel argument (the
input length) so that it computes by kernel reduction. -/
def removePatAux (pat : List Char) : Nat → List Char → List Char
  | _, [] => []
  | 0, l => l
  | fuel + 1, c :: rest =>
    if !pat.isEmpty && pat.isPrefixOf (c :: rest) then
      removePatAux pat fuel ((c :: rest).drop pat.length)
    else
      c :: removePatAux pat fuel rest

def removePat (pat : List Char) (l : List Char) : List Char :=
  removePatAux pat l.length l

/-- The normalisation CPython's `uuid.UUID` applies to its `hex` argument:
`hex.replace("urn:", "").replace("uuid:", "").strip("\x7b\x7d").replace("-", "")`. -/
def pythonUUIDNormalize (s : String) : List Char :=
  let l1 := removePat ("urn:".data) s.data
  let l2 := removePat ("uuid:".data) l1
  let l3 := ((l2.dropWhile isBrace).reverse.dropWhile isBrace).reverse
  l3.filter (fun c => c != '-')

def parseHex32 (l : List Char) : Option Nat :=
  l.foldl (fun acc c =>
    match acc, hexVal c with
    | some n, some d => some (16 * n + d)
    | _, _ => none) (some 0)

/-- CPython `uuid.UUID(task_id)`: accepts any string whose normalised form
is 32 hex digits, of any version, and yields the 128-bit integer value. -/
def pythonUUIDParse (s : String) : Option Nat :=
  let h := pythonUUIDNormalize s
  if h.length = 32 then parseHex32 h else none

def UUID_ALL_BITS : Nat := 2 ^ 128 - 1

/-- The version-forcing performed by CPython's `uuid.UUID(..., version=4)`:
clear the variant bits and set the RFC 4122 variant (`10`), clear the
version nibble and set it to `4`. This does NOT reject non-v4 inputs; it
rewrites them. -/
def forceVersion4 (n : Nat) : Nat :=
  let n1 := (n &&& (UUID_ALL_BITS ^^^ (0xc000 <<< 48))) ||| (0x8000 <<< 48)
  (n1 &&& (UUID_ALL_BITS ^^^ (0xf000 <<< 64))) ||| (4 <<< 76)

def hexChar (n : Nat) : Char :=
  if n < 10 then Char.ofNat (48 + n) else Char.ofNat (87 + n)

/-- `str(uuid_obj)`: canonical lowercase 8-4-4-4-12 rendering. -/
def uuidToString (n : Nat) : String :=
  let d := (List.range 32).map (fun i => hexChar ((n >>> (4 * (31 - i))) % 16))
  String.mk (d.take 8) ++ "-" ++ String.mk ((d.drop 8).take 4) ++ "-" ++
    String.mk ((d.drop 12).take 4) ++ "-" ++ String.mk ((d.drop 16).take 4) ++
    "-" ++ String.mk (d.drop 20)

inductive ValidateResult where
  | ok (canonical : String)
  | badRequest
deriving DecidableEq, Repr

/-- `validate_uuid` (src/api/utils.py, lines 10-30): constructs
`UUID(task_id, version=4)` and returns `str(uuid_obj)`; raises HTTP 400
(`badRequest`) only when parsing fails with `ValueError`. -/
def validate_uuid (task_id : String) : ValidateResult :=
  match pythonUUIDParse task_id with
  | some n => ValidateResult.ok (uuidToString (forceVersion4 n))
  | none => ValidateResult.badRequest

/-- UUID-v4 textual form as the specification words it (spec §6,
"`task_id` must be UUID-v4 form"): canonical 8-4-4-4-12 hex groups with the
version nibble `4` and an RFC 4122 variant nibble. Claim-side definition,
used to state claims C8 and C10 against the code's behaviour. -/
def specUUIDv4Form (s : String) : Bool :=
  let cs := s.data
  decide (cs.length = 36) &&
    (List.range 36).all (fun i =>
      let c := cs.getD i ' '
      if i = 8 ∨ i = 13 ∨ i = 18 ∨ i = 23 then c == '-'
      else if i = 14 then c == '4'
      else if i = 19 then
        c == '8' || c == '9' || c == 'a' || c == 'b' || c == 'A' || c == 'B'
      else (hexVal c).isSome)

/-- A delivered queue message after JSON decoding: `message.get("task_id")`
modelled as an optional string (absent key and JSON `null` both give
`none`). -/
structure QueueMessage where
  task_id : Option String
deriving DecidableEq, Repr

/-- Outcome of `QiskitExecutor.execute` (src/api/src/execution/
qiskit_executor.py): either a counts dictionary, or one of the exception
kinds the worker distinguishes — `QASM3ImporterError`, `AerError`,
`MemoryError`, or any other exception (carrying its type name). -/
inductive ExecOutcome where
  | counts (c : Counts)
  | parseError (msg : String)
  | aerError (msg : String)
  | memError (msg : String)
  | otherError (tyName : String) (msg : String)
deriving DecidableEq, Repr

structure WorkerResult where
  store : Store
  simCalled : Bool
deriving DecidableEq, Repr

/-- `shots = task.shots if task.shots else 1024` (worker.py line 125);
Python falsiness of the integer column is modelled by `0`. -/
def workerShots (task : TaskRec) : Nat :=
  if task.shots = 0 then 1024 else task.shots

/-- The execute-and-commit phase of `process_task` (worker.py, lines
122-262), entered only after a successful claim: format and commit the
counts on success (`format_counts` failing with `ValueError` is caught by
the generic `except Exception` handler), and on each classified exception
commit a PROCESSING→FAILED transition whose `error_message` is produced by
`formatter.format_error` with the branch's category and whose `notes`
mirror the f-strings of worker.py lines 176, 202, 228 and 248. `s2` is the
store after the claim; `interfCommit` models other workers acting between
execution and the commit. -/
def commitOutcome (tid : Nat) (s2 : Store) (interfCommit : Store → Store) :
    ExecOutcome → Store
  | .counts c =>
    match format_counts c with
    | .ok r =>
      (update_task_status (interfCommit s2) tid TaskStatus.processing
        TaskStatus.completed (some r) none notesCompleted).1
    | .error vmsg =>
      (update_task_status (interfCommit s2) tid TaskStatus.processing
        TaskStatus.failed none
        (some (format_error tyValueError vmsg catUnexpected))
        (catUnexpected ++ ": " ++ vmsg)).1
  | .parseError m =>
    (update_task_status (interfCommit s2) tid TaskStatus.processing
      TaskStatus.failed none (some (format_error tyQASM m catParse))
      (catParse ++ ": " ++ m)).1
  | .aerError m =>
    (update_task_status (interfCommit s2) tid TaskStatus.processing
      TaskStatus.failed none (some (format_error tyAer m catExec))
      ("Circuit execution error: " ++ m)).1
  | .memError m =>
    (update_task_status (interfCommit s2) tid TaskStatus.processing
      TaskStatus.failed none (some (format_error tyMemory m catExec))
      ("Circuit execution error: " ++ m)).1
  | .otherError ty m =>
    (update_task_status (interfCommit s2) tid TaskStatus.processing
      TaskStatus.failed none (some (format_error ty m catUnexpected))
      (catUnexpected ++ ": " ++ m)).1

/-- `process_task` (src/api/worker.py, lines 35-316). Concurrent
interference by other workers on the shared store is modelled by the two
functions `interfClaim` (applied between the idempotency read and the claim
transition) and `interfCommit` (applied between execution and the commit
transition); `exec` is the simulator oracle, `simCalled` records whether
line 144 (`executor.execute`) was reached. The function is total because
the Python function swallows every exception (the trailing
`except Exception` handler never re-raises), so the consumer always
acknowledges. Store operations themselves are total in this embedding, so
the outer `except Exception` recovery path (lines 264-313), reachable in
Python only via store faults, has no counterpart here. -/
def process_task (msg : QueueMessage) (s0 : Store)
    (interfClaim interfCommit : Store → Store)
    (exec : String → Nat → ExecOutcome) : WorkerResult :=
  match msg.task_id with
  | none => ⟨s0, false⟩
  | some tidStr =>
    if tidStr = "" then ⟨s0, false⟩
    else
      match pythonUUIDParse tidStr with
      | none => ⟨s0, false⟩
      | some tid =>
        match findTask s0 tid with
        | none => ⟨s0, false⟩
        | some task =>
          if task.current_status ≠ TaskStatus.pending then ⟨s0, false⟩
          else
            let claim := update_task_status (interfClaim s0) tid TaskStatus.pending
              TaskStatus.processing none none notesClaimed
            if claim.2 = false then ⟨claim.1, false⟩
            else
              ⟨commitOutcome tid claim.1 interfCommit
                (exec task.circuit (workerShots task)), true⟩

/-- A delivered message body as seen by the consumer, after the broker
handed it over: either a body that `json.loads` rejects, or a decoded JSON
object. -/
inductive MessageBody where
  | invalidJson
  | valid (msg : QueueMessage)
deriving DecidableEq, Repr

/-- What becomes of the delivery: `acked` (`message.process()` exits
normally and acknowledges) or `rejected` (`basic.reject` with
`requeue=False` — the message is dropped, not redelivered). -/
inductive MessageOutcome where
  | acked
  | rejected
deriving DecidableEq, Repr

/-- One iteration of `QueueConsumer.consume_messages`
(src/api/src/queue/consumer.py, lines 52-126) for a delivered message.
A body that fails `json.loads` is logged and the `json.JSONDecodeError`
re-raised, so the `message.process()` context manager rejects the message
with `requeue=False` (aio_pika default). A decoded body is passed to the
`process_task` callback, which never raises, so the context manager
acknowledges on exit. -/
def consume_one (body : MessageBody) (s0 : Store)
    (interfClaim interfCommit : Store → Store)
    (exec : String → Nat → ExecOutcome) : MessageOutcome × Store :=
  match body with
  | .invalidJson => (MessageOutcome.rejected, s0)
  | .valid msg =>
    (MessageOutcome.acked, (process_task msg s0 interfClaim interfCommit exec).store)

/-- How the broker behaves during one publish attempt. -/
inductive BrokerOutcome where
  | ok
  | connectionError
  | channelError
  | otherError
deriving DecidableEq, Repr

/-- `QueuePublisher.publish_task_message` (src/api/src/queue/publisher.py,
lines 62-181): returns `true` on success and `false` on failure — the
`except` clauses for `AMQPConnectionError`, `AMQPChannelError` and the
catch-all `Exception` all log and `return False`, so the coroutine never
raises. -/
def publish_task_message (broker : BrokerOutcome) : Bool :=
  match broker with
  | .ok => true
  | .connectionError => false
  | .channelError => false
  | .otherError => false

inductive SubmitResponse where
  | success (task_id : Nat)
  | serviceUnavailable
deriving DecidableEq, Repr

/-- `TaskService.submit_task` (src/src/core/services/task_service.py,
lines 26-68) together with the `POST /tasks` route (src/api/routes.py,
lines 43-107): create the task row, then call
`publisher.publish_task_message(task_id, circuit)` whose boolean return
value is ignored. Since `publish_task_message` never raises, the
`except aio_pika.AMQPException` → HTTP 503 branch of the route is
unreachable for publish failures and the route answers with the success
response. -/
def submit_task (circuit : String) (shots : Nat) (broker : BrokerOutcome)
    (s0 : Store) : Store × SubmitResponse :=
  let created := create_task s0 circuit shots
  let _published := publish_task_message broker
  (created.1, SubmitResponse.success created.2.task_id)

inductive StatusResponse where
  | badRequest
  | notFound
  | ok (status : String) (result : Option Counts)
deriving DecidableEq, Repr

/-- `GET /tasks/\x7btask_id\x7d` (src/api/routes.py, lines 112-210):
`validate_uuid` (HTTP 400 on `ValueError`), then
`repository.get_task_with_history(validated_task_id)` — a lookup by the
CANONICALIZED identifier (version nibble forced to 4) — answering 404 when
absent, else 200 with the lowercase status and the stored result. -/
def get_task_status (task_id : String) (s : Store) : StatusResponse :=
  match pythonUUIDParse task_id with
  | none => StatusResponse.badRequest
  | some n =>
    match findTask s (forceVersion4 n) with
    | none => StatusResponse.notFound
    | some t => StatusResponse.ok t.current_status.value t.result

structure HealthResponse where
  httpCode : Nat
  status : String
  database_status : String
  queue_status : String
deriving DecidableEq, Repr

/-- `GET /health` (src/api/routes.py, lines 215-262): the database probe
(`SELECT 1`, caught `SQLAlchemyError` ⇒ disconnected) and the queue probe
(`check_rabbitmq_health`) are modelled by the two booleans; the handler
raises no `HTTPException`, so the HTTP status is always 200. -/
def health_check (dbOk queueOk : Bool) : HealthResponse :=
  let database_status := if dbOk then ("connected") else ("disconnected")
  let queue_status := if queueOk then ("connected") else ("disconnected")
  let overall := if database_status = "connected" ∧ queue_status = "connected"
    then ("healthy") else ("unhealthy")
  ⟨200, overall, database_status, queue_status⟩

/-! Concrete inputs used by witnesses and counterexamples. -/

def demoCircuit : String := "OPENQASM 3; qubit q;"
def zeroUuidStr : String := "00000000-0000-0000-0000-000000000000"
def canonZeroStr : String := "00000000-0000-4000-8000-000000000000"
def demoExec : String → Nat → ExecOutcome := fun _ _ => ExecOutcome.counts []
def demoMsg : QueueMessage := ⟨some zeroUuidStr⟩
def demoStorePending : Store := (create_task emptyStore demoCircuit 100).1
def demoStoreC2 : Store :=
  (update_task_status demoStorePending 0
    TaskStatus.pending TaskStatus.processing none none notesClaimed).1
def demoTaskC2 : TaskRec :=
  ⟨0, demoCircuit, 100, 0, TaskStatus.processing, none, none, none⟩
def demoStoreDone : Store :=
  ⟨[⟨0, demoCircuit, 100, 0, TaskStatus.completed, some 1,
     some [("0", (100 : Int))], none⟩], [], 1, 2⟩
def demoTaskDone : TaskRec :=
  ⟨0, demoCircuit, 100, 0, TaskStatus.completed, some 1,
   some [("0", (100 : Int))], none⟩
def demoInterf : Store → Store := fun s =>
  (update_task_status s 0 TaskStatus.pending TaskStatus.processing none none
    notesClaimed).1

/-- Claim C1, what the code actually does at the failing input (broker
publish fails with a connection error): the task row is persisted as
PENDING before the publish attempt and is not rolled back, but the caller
receives the success response rather than HTTP 503, because
`publish_task_message` catches the failure and returns `False` and
`TaskService.submit_task` ignores that return value. -/
theorem submit_publish_failure_success_response :
    (submit_task demoCircuit 100 BrokerOutcome.connectionError emptyStore).2 =
        SubmitResponse.success 0 ∧
    (submit_task demoCircuit 100 BrokerOutcome.connectionError emptyStore).2 ≠
        SubmitResponse.serviceUnavailable ∧
    findTask (submit_task demoCircuit 100 BrokerOutcome.connectionError
        emptyStore).1 0 =
      some ⟨0, demoCircuit, 100, 0, TaskStatus.pending, none, none, none⟩ ∧
    (∀ broker : BrokerOutcome,
      submit_task demoCircuit 100 broker emptyStore =
        submit_task demoCircuit 100 BrokerOutcome.ok emptyStore) := by
  refine ⟨by decide, by decide, by decide, ?_⟩
  intro broker
  rfl

/-- Claim C2: in every committed store state reachable by task creation and
guarded worker transitions, the history entry that is latest by
`transitioned_at` carries exactly the task's `current_status`. -/
theorem current_status_eq_latest_history (s : Store) (hs : Reachable s) :
    ∀ t ∈ s.tasks,
      (latestTaskEntry s t.task_id).map HistEntry.status =
        some t.current_status :=
  (storeInv_of_reachable s hs).latest_matches

theorem current_status_eq_latest_history_witness :
    (latestTaskEntry demoStoreC2 0).map HistEntry.status =
      some TaskStatus.processing := by
  have hreach : Reachable demoStoreC2 :=
    Reachable.step demoStorePending 0 TaskStatus.pending TaskStatus.processing
      none none notesClaimed
      (Reachable.create emptyStore demoCircuit 100 Reachable.empty)
  have hmem : demoTaskC2 ∈ demoStoreC2.tasks := by decide
  exact current_status_eq_latest_history demoStoreC2 hreach demoTaskC2 hmem

theorem process_task_guard_eq (msg : QueueMessage) (s0 : Store)
    (i1 i2 : Store → Store) (exec : String → Nat → ExecOutcome)
    (tidStr : String) (tid : Nat) (task : TaskRec)
    (hmsg : msg.task_id = some tidStr)
    (hparse : pythonUUIDParse tidStr = some tid)
    (hfind : findTask s0 tid = some task) :
    process_task msg s0 i1 i2 exec =
      (if task.current_status ≠ TaskStatus.pending then (⟨s0, false⟩ : WorkerResult)
       else
         let claim := update_task_status (i1 s0) tid TaskStatus.pending
           TaskStatus.processing none none notesClaimed
         if claim.2 = false then ⟨claim.1, false⟩
         else ⟨commitOutcome tid claim.1 i2
           (exec task.circuit (workerShots task)), true⟩) := by
  have hne : tidStr ≠ "" := by
    intro h
    rw [h] at hparse
    have hnone : pythonUUIDParse ("") = none := by decide
    rw [hnone] at hparse
    exact Option.noConfusion hparse
  simp only [process_task, hmsg, if_neg hne, hparse, hfind]

/-- Claim C3: a delivered message whose task exists with a status other
than PENDING is a no-op — the worker returns at the idempotency guard
without transitioning, modifying any field, appending history or invoking
the simulator, and the consumer acknowledges the message with the store
unchanged. -/
theorem process_task_nonpending_noop (msg : QueueMessage) (s0 : Store)
    (i1 i2 : Store → Store) (exec : String → Nat → ExecOutcome)
    (tidStr : String) (tid : Nat) (task : TaskRec)
    (hmsg : msg.task_id = some tidStr)
    (hparse : pythonUUIDParse tidStr = some tid)
    (hfind : findTask s0 tid = some task)
    (hstatus : task.current_status ≠ TaskStatus.pending) :
    process_task msg s0 i1 i2 exec = ⟨s0, false⟩ ∧
    consume_one (MessageBody.valid msg) s0 i1 i2 exec =
      (MessageOutcome.acked, s0) := by
  have h1 : process_task msg s0 i1 i2 exec = ⟨s0, false⟩ := by
    rw [process_task_guard_eq msg s0 i1 i2 exec tidStr tid task hmsg hparse hfind]
    exact if_pos hstatus
  exact ⟨h1, by simp [consume_one, h1]⟩

theorem process_task_nonpending_noop_witness :
    process_task demoMsg demoStoreDone id id demoExec = ⟨demoStoreDone, false⟩ ∧
    consume_one (MessageBody.valid demoMsg) demoStoreDone id id demoExec =
      (MessageOutcome.acked, demoStoreDone) :=
  process_task_nonpending_noop demoMsg demoStoreDone id id demoExec
    zeroUuidStr 0 demoTaskDone rfl (by decide) (by decide) (by decide)

/-- Claim C4: when the guarded PENDING→PROCESSING claim returns false
(another worker advanced the task between the idempotency read and the
claim), `process_task` does not invoke the simulator and performs no
further transition — the resulting store is exactly the store after the
failed guarded transition, whose tasks and history are untouched — and the
message is acknowledged. -/
theorem process_task_claim_race_noop (msg : QueueMessage) (s0 : Store)
    (i1 i2 : Store → Store) (exec : String → Nat → ExecOutcome)
    (tidStr : String) (tid : Nat) (task : TaskRec)
    (hmsg : msg.task_id = some tidStr)
    (hparse : pythonUUIDParse tidStr = some tid)
    (hfind : findTask s0 tid = some task)
    (hpending : task.current_status = TaskStatus.pending)
    (hclaim : (update_task_status (i1 s0) tid TaskStatus.pending
      TaskStatus.processing none none notesClaimed).2 = false) :
    process_task msg s0 i1 i2 exec =
      ⟨(update_task_status (i1 s0) tid TaskStatus.pending TaskStatus.processing
          none none notesClaimed).1, false⟩ ∧
    (update_task_status (i1 s0) tid TaskStatus.pending TaskStatus.processing
        none none notesClaimed).1.tasks = (i1 s0).tasks ∧
    (update_task_status (i1 s0) tid TaskStatus.pending TaskStatus.processing
        none none notesClaimed).1.history = (i1 s0).history ∧
    consume_one (MessageBody.valid msg) s0 i1 i2 exec =
      (MessageOutcome.acked, (update_task_status (i1 s0) tid TaskStatus.pending
          TaskStatus.processing none none notesClaimed).1) := by
  have h1 : process_task msg s0 i1 i2 exec =
      ⟨(update_task_status (i1 s0) tid TaskStatus.pending TaskStatus.processing
          none none notesClaimed).1, false⟩ := by
    rw [process_task_guard_eq msg s0 i1 i2 exec tidStr tid task hmsg hparse hfind]
    rw [if_neg (not_not_intro hpending)]
    simp only [hclaim, if_pos]
  have h2 := update_task_status_fail_eq (i1 s0) tid TaskStatus.pending
    TaskStatus.processing none none notesClaimed hclaim
  refine ⟨h1, by rw [h2], by rw [h2], by simp [consume_one, h1]⟩

theorem process_task_claim_race_noop_witness :
    process_task demoMsg demoStorePending demoInterf id demoExec =
      ⟨(update_task_status (demoInterf demoStorePending) 0 TaskStatus.pending
          TaskStatus.processing none none notesClaimed).1, false⟩ :=
  (process_task_claim_race_noop demoMsg demoStorePending demoInterf id demoExec
    zeroUuidStr 0 ⟨0, demoCircuit, 100, 0, TaskStatus.pending, none, none, none⟩
    rfl (by decide) (by decide) (by decide) (by decide)).1

/-- The category the specification assigns to each execution failure
(spec §4.3 error classification): parse failures → `Circuit parse error`,
simulator runtime faults including out-of-memory → `Execution error`, any
other exception — including the `ValueError` thrown when `format_counts`
rejects the simulator's counts — → `Unexpected error`; `none` when the
execution succeeded. -/
def execCategory : ExecOutcome → Option String
  | .counts c => if validCountsB c then none else some catUnexpected
  | .parseError _ => some catParse
  | .aerError _ => some catExec
  | .memError _ => some catExec
  | .otherError _ _ => some catUnexpected

def beginsWith (s p : String) : Prop := ∃ r, s = p ++ r

/-- `em` begins with the category string `cat` and with none of the other
two classification categories. -/
def beginsWithExactlyOne (em cat : String) : Prop :=
  beginsWith em cat ∧
    ∀ c, (c = catParse ∨ c = catExec ∨ c = catUnexpected) → c ≠ cat →
      ¬ beginsWith em c

theorem data_append (a b : String) : (a ++ b).data = a.data ++ b.data := by
  cases a; cases b; rfl

theorem head_of_beginsWith {s p : String} {c : Char} {cs : List Char}
    (hp : p.data = c :: cs) (h : beginsWith s p) : s.data.head? = some c := by
  rcases h with ⟨r, rfl⟩
  rw [data_append, hp]
  rfl

theorem not_beginsWith_head_ne {s p : String} {c d : Char} {ds : List Char}
    (hs : s.data.head? = some c) (hp : p.data = d :: ds) (hne : c ≠ d) :
    ¬ beginsWith s p := by
  intro h
  have h2 := head_of_beginsWith hp h
  rw [hs] at h2
  exact hne (Option.some.inj h2)

theorem format_error_beginsWith (ty m cat : String) :
    beginsWith (format_error ty m cat) cat :=
  ⟨": " ++ ty ++ ": " ++ m, by simp [format_error, String.append_assoc]⟩

theorem format_error_head {cat : String} {c : Char} {cs : List Char}
    (ty m : String) (h : cat.data = c :: cs) :
    (format_error ty m cat).data.head? = some c :=
  head_of_beginsWith h (format_error_beginsWith ty m cat)

theorem format_error_exactlyOne (ty m : String) (cat : String)
    (hc : cat = catParse ∨ cat = catExec ∨ cat = catUnexpected) :
    beginsWithExactlyOne (format_error ty m cat) cat := by
  have hP : catParse.data = 'C' :: "ircuit parse error".data := by decide
  have hE : catExec.data = 'E' :: "xecution error".data := by decide
  have hU : catUnexpected.data = 'U' :: "nexpected error".data := by decide
  refine ⟨format_error_beginsWith ty m cat, ?_⟩
  intro c hcmem hne
  rcases hc with rfl | rfl | rfl <;> rcases hcmem with rfl | rfl | rfl <;>
    first
    | exact absurd rfl hne
    | exact not_beginsWith_head_ne (format_error_head ty m hP) hE (by decide)
    | exact not_beginsWith_head_ne (format_error_head ty m hP) hU (by decide)
    | exact not_beginsWith_head_ne (format_error_head ty m hE) hP (by decide)
    | exact not_beginsWith_head_ne (format_error_head ty m hE) hU (by decide)
    | exact not_beginsWith_head_ne (format_error_head ty m hU) hP (by decide)
    | exact not_beginsWith_head_ne (format_error_head ty m hU) hE (by decide)

theorem commit_failed_classified (s3 : Store) (tid : Nat)
    (ty m cat notes : String) (u : TaskRec)
    (hu : findTask s3 tid = some u)
    (hup : u.current_status = TaskStatus.processing) :
    ∃ t',
      findTask (update_task_status s3 tid TaskStatus.processing
        TaskStatus.failed none (some (format_error ty m cat)) notes).1 tid =
          some t' ∧
      t'.current_status = TaskStatus.failed ∧
      t'.error_message = some (format_error ty m cat) := by
  refine ⟨updatedRec s3 TaskStatus.failed none (some (format_error ty m cat)) u,
    ?_, rfl, ?_⟩
  · exact findTask_update_self s3 tid TaskStatus.processing TaskStatus.failed
      none (some (format_error ty m cat)) notes u hu hup
  · simp [updatedRec]

/-- Claim C5: every execution failure after a successful claim is committed
as a PROCESSING→FAILED transition whose `error_message` begins with exactly
one of the three classification categories, the one matching the failure
kind: `QASM3ImporterError` → `Circuit parse error`, `AerError`/`MemoryError`
→ `Execution error`, anything else → `Unexpected error`. The hypotheses
require the task to still be PROCESSING when the commit runs (no competing
writer), which is what lets the guarded commit land. -/
theorem process_task_failure_classified (msg : QueueMessage) (s0 : Store)
    (i1 i2 : Store → Store) (exec : String → Nat → ExecOutcome)
    (tidStr : String) (tid : Nat) (task : TaskRec) (cat : String)
    (hmsg : msg.task_id = some tidStr)
    (hparse : pythonUUIDParse tidStr = some tid)
    (hfind : findTask s0 tid = some task)
    (hpending : task.current_status = TaskStatus.pending)
    (hclaim : (update_task_status (i1 s0) tid TaskStatus.pending
      TaskStatus.processing none none notesClaimed).2 = true)
    (hcat : execCategory (exec task.circuit (workerShots task)) = some cat)
    (u : TaskRec)
    (hu : findTask (i2 (update_task_status (i1 s0) tid TaskStatus.pending
      TaskStatus.processing none none notesClaimed).1) tid = some u)
    (hup : u.current_status = TaskStatus.processing) :
    ∃ t' em,
      findTask (process_task msg s0 i1 i2 exec).store tid = some t' ∧
      t'.current_status = TaskStatus.failed ∧
      t'.error_message = some em ∧
      beginsWithExactlyOne em cat := by
  have hres : process_task msg s0 i1 i2 exec =
      ⟨commitOutcome tid (update_task_status (i1 s0) tid TaskStatus.pending
          TaskStatus.processing none none notesClaimed).1 i2
        (exec task.circuit (workerShots task)), true⟩ := by
    rw [process_task_guard_eq msg s0 i1 i2 exec tidStr tid task hmsg hparse hfind,
      if_neg (not_not_intro hpending)]
    simp only [hclaim, Bool.true_eq_false, if_false]
  rw [hres]
  cases hout : exec task.circuit (workerShots task) with
  | counts c =>
    rw [hout] at hcat
    simp only [execCategory] at hcat
    cases hval : validCountsB c with
    | true => rw [hval] at hcat; simp at hcat
    | false =>
      rw [hval] at hcat
      simp at hcat
      subst hcat
      cases hfc : format_counts c with
      | ok d =>
        exfalso
        have hd : d = c := format_counts_ok_eq c d hfc
        rw [hd] at hfc
        have h2 := (format_counts_eq_ok_iff c).mp hfc
        rw [hval] at h2
        exact Bool.noConfusion h2
      | error vmsg =>
        simp only [commitOutcome, hfc]
        obtain ⟨t', h1, h2, h3⟩ := commit_failed_classified _ tid tyValueError
          vmsg catUnexpected (catUnexpected ++ ": " ++ vmsg) u hu hup
        exact ⟨t', format_error tyValueError vmsg catUnexpected, h1, h2, h3,
          format_error_exactlyOne tyValueError vmsg catUnexpected
            (Or.inr (Or.inr rfl))⟩
  | parseError m =>
    rw [hout] at hcat
    simp only [execCategory, Option.some.injEq] at hcat
    subst hcat
    simp only [commitOutcome]
    obtain ⟨t', h1, h2, h3⟩ := commit_failed_classified _ tid tyQASM m catParse
      (catParse ++ ": " ++ m) u hu hup
    exact ⟨t', format_error tyQASM m catParse, h1, h2, h3,
      format_error_exactlyOne tyQASM m catParse (Or.inl rfl)⟩
  | aerError m =>
    rw [hout] at hcat
    simp only [execCategory, Option.some.injEq] at hcat
    subst hcat
    simp only [commitOutcome]
    obtain ⟨t', h1, h2, h3⟩ := commit_failed_classified _ tid tyAer m catExec
      ("Circuit execution error: " ++ m) u hu hup
    exact ⟨t', format_error tyAer m catExec, h1, h2, h3,
      format_error_exactlyOne tyAer m catExec (Or.inr (Or.inl rfl))⟩
  | memError m =>
    rw [hout] at hcat
    simp only [execCategory, Option.some.injEq] at hcat
    subst hcat
    simp only [commitOutcome]
    obtain ⟨t', h1, h2, h3⟩ := commit_failed_classified _ tid tyMemory m catExec
      ("Circuit execution error: " ++ m) u hu hup
    exact ⟨t', format_error tyMemory m catExec, h1, h2, h3,
      format_error_exactlyOne tyMemory m catExec (Or.inr (Or.inl rfl))⟩
  | otherError ty m =>
    rw [hout] at hcat
    simp only [execCategory, Option.some.injEq] at hcat
    subst hcat
    simp only [commitOutcome]
    obtain ⟨t', h1, h2, h3⟩ := commit_failed_classified _ tid ty m catUnexpected
      (catUnexpected ++ ": " ++ m) u hu hup
    exact ⟨t', format_error ty m catUnexpected, h1, h2, h3,
      format_error_exactlyOne ty m catUnexpected (Or.inr (Or.inr rfl))⟩

def demoExecParse : String → Nat → ExecOutcome :=
  fun _ _ => ExecOutcome.parseError ("bad qasm")

theorem process_task_failure_classified_witness :
    ∃ t' em,
      findTask (process_task demoMsg demoStorePending id id
        demoExecParse).store 0 = some t' ∧
      t'.current_status = TaskStatus.failed ∧
      t'.error_message = some em ∧
      beginsWithExactlyOne em catParse :=
  process_task_failure_classified demoMsg demoStorePending id id demoExecParse
    zeroUuidStr 0 ⟨0, demoCircuit, 100, 0, TaskStatus.pending, none, none, none⟩
    catParse rfl (by decide) (by decide) rfl (by decide) (by decide)
    demoTaskC2 (by decide) rfl

/-- Claim C6 (amended): `format_counts` returns its input unchanged exactly
when every key is a POSSIBLY-EMPTY string over `\x7b'0','1'\x7d` and every value
is a nonnegative integer, and raises `ValueError` for every other input;
every dictionary it returns — hence the counts map attached to every
COMPLETED commit — satisfies that validation. (The original claim's
nonemptiness requirement on keys is not enforced; see the counterexample.) -/
theorem format_counts_valid_iff (c : Counts) :
    (format_counts c = Except.ok c ↔ validCountsB c = true) ∧
    (∀ d, format_counts c = Except.ok d → d = c ∧ validCountsB d = true) ∧
    (validCountsB c = false → ∃ m, format_counts c = Except.error m) := by
  refine ⟨format_counts_eq_ok_iff c, ?_, ?_⟩
  · intro d hd
    have h1 := format_counts_ok_eq c d hd
    refine ⟨h1, ?_⟩
    rw [h1] at hd ⊢
    exact (format_counts_eq_ok_iff c).mp hd
  · intro hf
    cases hfc : format_counts c with
    | ok d =>
      exfalso
      have h1 := format_counts_ok_eq c d hfc
      rw [h1] at hfc
      have h2 := (format_counts_eq_ok_iff c).mp hfc
      rw [hf] at h2
      exact Bool.noConfusion h2
    | error m => exact ⟨m, rfl⟩

theorem format_counts_valid_iff_witness :
    format_counts [("01", (3 : Int))] = Except.ok [("01", (3 : Int))] ∧
    (∃ m, format_counts [("0", (-1 : Int))] = Except.error m) :=
  ⟨(format_counts_valid_iff [("01", (3 : Int))]).1.mpr (by decide),
   (format_counts_valid_iff [("0", (-1 : Int))]).2.2 (by decide)⟩

/-- Claim C6 counterexample: the claim requires every key to be a NONEMPTY
bitstring, but `format_counts` accepts the empty-string key — Python's
`all(c in "01" for c in key)` is vacuously true — and returns the map
unchanged instead of raising `ValueError`. -/
theorem format_counts_empty_key_accepted :
    format_counts [("", (5 : Int))] = Except.ok [("", (5 : Int))] ∧
    specValidCounts [("", (5 : Int))] = false := ⟨rfl, by decide⟩

/-- Claim C7 counterexample: a delivered body that is not valid JSON is NOT
acknowledged — the consumer logs and re-raises `json.JSONDecodeError`
inside `message.process()`, which REJECTS (negatively acknowledges) the
message with `requeue=False`. -/
theorem consume_invalid_json_rejected :
    consume_one MessageBody.invalidJson emptyStore id id demoExec =
      (MessageOutcome.rejected, emptyStore) ∧
    MessageOutcome.rejected ≠ MessageOutcome.acked := by decide

/-- Claim C7 (amended): a body that is not valid JSON is logged and
rejected (negatively acknowledged) without requeue — dropped, never
redelivered — while a decoded message lacking `task_id` (absent, null or
empty) or carrying a `task_id` that fails UUID parsing is logged and
acknowledged; in every one of these cases no task state is modified. -/
theorem consume_malformed_dropped (s0 : Store) (i1 i2 : Store → Store)
    (exec : String → Nat → ExecOutcome) (msg : QueueMessage) :
    consume_one MessageBody.invalidJson s0 i1 i2 exec =
      (MessageOutcome.rejected, s0) ∧
    (msg.task_id = none →
      consume_one (MessageBody.valid msg) s0 i1 i2 exec =
        (MessageOutcome.acked, s0)) ∧
    (∀ tidStr, msg.task_id = some tidStr → pythonUUIDParse tidStr = none →
      consume_one (MessageBody.valid msg) s0 i1 i2 exec =
        (MessageOutcome.acked, s0)) := by
  refine ⟨rfl, ?_, ?_⟩
  · intro h
    simp [consume_one, process_task, h]
  · intro tidStr hm hp
    by_cases he : tidStr = ""
    · simp [consume_one, process_task, hm, he]
    · simp [consume_one, process_task, hm, he, hp]

def badUuidStr : String := "not-a-uuid"

theorem consume_malformed_dropped_witness :
    consume_one MessageBody.invalidJson emptyStore id id demoExec =
      (MessageOutcome.rejected, emptyStore) ∧
    consume_one (MessageBody.valid ⟨none⟩) emptyStore id id demoExec =
      (MessageOutcome.acked, emptyStore) ∧
    consume_one (MessageBody.valid ⟨some badUuidStr⟩) emptyStore id id
      demoExec = (MessageOutcome.acked, emptyStore) :=
  ⟨(consume_malformed_dropped emptyStore id id demoExec ⟨none⟩).1,
   (consume_malformed_dropped emptyStore id id demoExec ⟨none⟩).2.1 rfl,
   (consume_malformed_dropped emptyStore id id demoExec
      ⟨some badUuidStr⟩).2.2 badUuidStr rfl (by decide)⟩

/-- Claim C8 counterexample: the all-zero UUID string is not in UUID-v4
form, yet the route does not answer 400 — `validate_uuid` accepts it,
forces the version bits, and the lookup proceeds, answering 404 on a store
without the task. -/
theorem get_task_nonv4_not_badRequest :
    specUUIDv4Form zeroUuidStr = false ∧
    get_task_status zeroUuidStr emptyStore = StatusResponse.notFound ∧
    StatusResponse.notFound ≠ StatusResponse.badRequest := by decide

/-- Claim C8 (amended): `GET /tasks/...` returns 400 exactly for `task_id`
strings that fail UUID parsing altogether (strings parsing as a UUID of any
version are accepted); for a string that parses, the lookup uses the
canonicalized value (version forced to 4) and returns 404 when no task with
that canonical id exists in the store. -/
theorem get_task_status_responses (task_id : String) (s : Store) :
    (pythonUUIDParse task_id = none →
      get_task_status task_id s = StatusResponse.badRequest) ∧
    (∀ n, pythonUUIDParse task_id = some n →
      findTask s (forceVersion4 n) = none →
      get_task_status task_id s = StatusResponse.notFound) := by
  constructor
  · intro h
    simp [get_task_status, h]
  · intro n h1 h2
    simp [get_task_status, h1, h2]

theorem get_task_status_responses_witness :
    get_task_status badUuidStr emptyStore = StatusResponse.badRequest ∧
    get_task_status zeroUuidStr emptyStore = StatusResponse.notFound :=
  ⟨(get_task_status_responses badUuidStr emptyStore).1 (by decide),
   (get_task_status_responses zeroUuidStr emptyStore).2 0 (by decide) rfl⟩

/-- Claim C9: `/health` answers HTTP 200 in every case; the status is
"healthy" iff both the database probe and the queue probe succeed,
otherwise "unhealthy", and each backend is reported "connected" or
"disconnected" according to its own probe. -/
theorem health_check_contract (dbOk queueOk : Bool) :
    (health_check dbOk queueOk).httpCode = 200 ∧
    ((health_check dbOk queueOk).status = "healthy" ↔
      (dbOk = true ∧ queueOk = true)) ∧
    ((health_check dbOk queueOk).status = "unhealthy" ↔
      ¬(dbOk = true ∧ queueOk = true)) ∧
    (health_check dbOk queueOk).database_status =
      (if dbOk then ("connected") else ("disconnected")) ∧
    (health_check dbOk queueOk).queue_status =
      (if queueOk then ("connected") else ("disconnected")) := by
  cases dbOk <;> cases queueOk <;> decide

theorem health_check_contract_witness :
    (health_check false true).status = "unhealthy" ∧
    (health_check false true).database_status = "disconnected" ∧
    (health_check true true).status = "healthy" ∧
    (health_check true true).httpCode = 200 :=
  ⟨(health_check_contract false true).2.2.1.mpr (by simp),
   by
     have h := (health_check_contract false true).2.2.2.1
     simpa using h,
   (health_check_contract true true).2.1.mpr ⟨rfl, rfl⟩,
   (health_check_contract true true).1⟩

/-- Claim C10: `validate_uuid` accepts every string that parses as a UUID
regardless of its version — `UUID(task_id, version=4)` forces the version
nibble to 4 and the variant to RFC 4122 instead of rejecting — so for a
well-formed non-v4 `task_id` (the all-zero UUID) the route does not answer
400 but looks up a canonicalized identifier differing from the client's
string. -/
theorem validate_uuid_forces_version :
    (∀ s n, pythonUUIDParse s = some n →
      validate_uuid s = ValidateResult.ok (uuidToString (forceVersion4 n))) ∧
    validate_uuid zeroUuidStr = ValidateResult.ok canonZeroStr ∧
    canonZeroStr ≠ zeroUuidStr ∧
    specUUIDv4Form zeroUuidStr = false ∧
    specUUIDv4Form canonZeroStr = true ∧
    get_task_status zeroUuidStr emptyStore ≠ StatusResponse.badRequest := by
  refine ⟨?_, by decide, by decide, by decide, by decide, by decide⟩
  intro s n h
  simp [validate_uuid, h]

theorem validate_uuid_forces_version_witness :
    validate_uuid ("12345678-1234-5678-1234-567812345678") =
      ValidateResult.ok
        (uuidToString (forceVersion4 24197857161011715162171839636988778104)) :=
  validate_uuid_forces_version.1 ("12345678-1234-5678-1234-567812345678")
    24197857161011715162171839636988778104 (by decide)

end QuantumTasks
